import Mathlib

/-!
Shallow embedding of `generate_passphrase.py` (Techcable/passphrase-generator).

The program parses a wordlist file line by line under one of two formats
(`plain`, `dicelist-eff`), builds an indexed list of words, samples
`word_count` words uniformly at random with replacement, and prints them
joined by a single join character.

Modelling conventions:
* A text file is a `List String` of its lines (Python line iteration keeps
  the trailing newline, but every line is immediately stripped, so lines
  without terminators are an equivalent representation).
* Python regular expressions are embedded for the ASCII fragment:
  `\w` is `[A-Za-z0-9_]`, `\d` is `[0-9]`, `\s` is the six ASCII whitespace
  characters.  All claims and all concrete inputs in this development are
  ASCII, where this model is exact.
* `secrets.choice` is modelled by an oracle `rand : Nat → Nat` giving the
  index drawn at each step; `secrets._randbelow` always returns a value
  below the list length when the list is non-empty, and `choice` on an
  empty list raises `IndexError` (modelled as `Except.error`).
* Output streams are modelled as lists of printed lines: `stdout` for the
  final passphrase, `stderr` for diagnostics.
-/

set_option autoImplicit false

deriving instance DecidableEq for Except

namespace PassphraseGen

/-- ASCII fragment of the whitespace class used by `str.strip` and `\s`:
space, tab, newline, carriage return, vertical tab, form feed. -/
def isPySpace (c : Char) : Bool :=
  c = ' ' || c = '\t' || c = '\n' || c = '\r' || c = '\x0b' || c = '\x0c'

/-- ASCII fragment of the character class `[\w-]` appearing in
`VALID_WORD_PATTERN = re.compile("(?P<word>[\w-]+)")`. -/
def isWordChar (c : Char) : Bool :=
  c.isAlphanum || c = '_' || c = '-'

/-- Python `str.strip()`: remove leading and trailing whitespace. -/
def pyStrip (s : String) : String :=
  String.mk (((s.toList.dropWhile isPySpace).reverse.dropWhile isPySpace).reverse)

/-- Full match of `VALID_WORD_PATTERN` (`[\w-]+`): one or more word
characters or hyphens and nothing else. -/
def validWord (s : String) : Bool :=
  !s.toList.isEmpty && s.toList.all isWordChar

/-- The enumeration `WordlistFormat` with variants `PLAIN` ("plain") and
`DICELIST_EFF` ("dicelist-eff"). -/
inductive WordlistFormat
  | plain
  | dicelistEff
deriving DecidableEq

/-- Reason carried by an `InvalidWordlist` error: the two `bad_line` call
sites in `WordlistFormat.parse` ("Not a valid line" at the pattern check,
"Invalid word {word!r}" at the word-shape check). -/
inductive Reason
  | notValidLine
  | invalidWord (word : String)
deriving DecidableEq

/-- The `InvalidWordlist` exception: reason, 1-based line number, file path
and format (the fields stored by `InvalidWordlist.__init__`). -/
structure InvalidWordlist where
  reason : Reason
  lineno : Nat
  filePath : String
  fmt : WordlistFormat
deriving DecidableEq

/-- The `Word` dataclass: a text and its zero-based index. -/
structure Word where
  word : String
  index : Nat
deriving DecidableEq

/-- `Word.__post_init__`: constructing a `Word` raises `ValueError` unless
the text fully matches `VALID_WORD_PATTERN`. -/
def mkWord (word : String) (index : Nat) : Except String Word :=
  if validWord word then .ok ⟨word, index⟩
  else .error ("Invalid word: " ++ word)

/-- `Word.describe`: the string `f"index {self.index}: {self.word!r}"`.
Python `repr` of a string made only of word characters and hyphens is the
string wrapped in single quotes (no character in `[\w-]` needs escaping). -/
def Word.describe (w : Word) : String :=
  "index " ++ toString w.index ++ ": " ++ "\x27" ++ w.word ++ "\x27"

/-- Full match of a format line pattern (`WordlistFormat._line_pattern`)
against an (already stripped) line, returning the `word` capture group:
* `plain` uses `VALID_WORD_PATTERN` itself, so the whole line is captured
  when it fully matches `[\w-]+`;
* `dicelist-eff` uses `\d+\s*(?P<word>\S*)`.  A full match exists exactly
  when the line is a non-empty digit run, then a whitespace run, then a
  whitespace-free tail; the tail is the capture.  (The greedy decomposition
  is the one the engine reports, and if it fails every backtracking
  alternative also fails, since any shorter `\d+`/`\s*` leaves the
  offending whitespace inside the span `\S*` must cover.) -/
def lineMatch : WordlistFormat → String → Option String
  | .plain, l => if validWord l then some l else none
  | .dicelistEff, l =>
    let cs := l.toList
    let ds := cs.takeWhile Char.isDigit
    let tail := (cs.dropWhile Char.isDigit).dropWhile isPySpace
    if ds.isEmpty then none
    else if tail.all (fun c => !isPySpace c) then some (String.mk tail)
    else none

/-- Loop body of `WordlistFormat.parse`, recursing over the remaining lines
with the current 1-based line number and the accumulated word list.
Blank lines (empty after stripping) are skipped; a line that does not
fully match the format pattern raises `InvalidWordlist("Not a valid line")`;
a captured word that does not fully match `VALID_WORD_PATTERN` raises
`InvalidWordlist("Invalid word ...")`; otherwise a `Word` with index
`len(result)` is appended.  (The `Word(...)` constructor call cannot raise
here because the guard just established `validWord`.) -/
def parseGo (fmt : WordlistFormat) (filePath : String) :
    Nat → List Word → List String → Except InvalidWordlist (List Word)
  | _, acc, [] => .ok acc
  | lineno, acc, line :: rest =>
    let l := pyStrip line
    if l = "" then
      parseGo fmt filePath (lineno + 1) acc rest
    else
      match lineMatch fmt l with
      | none => .error ⟨.notValidLine, lineno, filePath, fmt⟩
      | some w =>
        if validWord w then
          parseGo fmt filePath (lineno + 1) (acc ++ [⟨w, acc.length⟩]) rest
        else
          .error ⟨.invalidWord w, lineno, filePath, fmt⟩

/-- `WordlistFormat.parse(file, file_path)`: parse the lines of a file into
an ordered list of `Word`, or fail with the first `InvalidWordlist` error. -/
def WordlistFormat.parse (fmt : WordlistFormat) (filePath : String)
    (lines : List String) : Except InvalidWordlist (List Word) :=
  parseGo fmt filePath 1 [] lines

/-- The format string `f"{i:02}"`: the decimal form of `i`, zero-padded on
the left to a width of at least 2. -/
def fmt02 (n : Nat) : String :=
  let s := toString n
  if s.length < 2 then String.mk (List.replicate (2 - s.length) '0') ++ s
  else s

/-- The diagnostic line printed for draw `i`:
`print(f"{i:02} picked", pick.describe(), file=sys.stderr)` joins its two
arguments with a single space. -/
def pickLine (i : Nat) (pick : Word) : String :=
  fmt02 i ++ " picked " ++ pick.describe

/-- Failure of `secrets.choice` (the `IndexError` raised when indexing an
empty sequence). -/
inductive SampleError
  | indexError
deriving DecidableEq

/-- The sampling loop `for i in range(word_count)`: at step `i` the draw
`secrets.choice(wordlist)` yields element `rand i` of the wordlist
(`IndexError` when out of range, which for a faithful oracle happens
exactly when the wordlist is empty).  Returns the picked word texts and
the diagnostic lines, both in draw order. -/
def sampleGo (wl : List Word) (rand : Nat → Nat) :
    Nat → Nat → Except SampleError (List String × List String)
  | _, 0 => .ok ([], [])
  | i, n + 1 =>
    match wl.get? (rand i) with
    | none => .error .indexError
    | some pick =>
      match sampleGo wl rand (i + 1) n with
      | .error e => .error e
      | .ok (ws, logs) => .ok (pick.word :: ws, pickLine i pick :: logs)

/-- The two output streams of a successful run, each as a list of printed
lines. -/
structure RunOut where
  stdout : List String
  stderr : List String
deriving DecidableEq

/-- All the ways an invocation can terminate with a non-zero status:
click option validation failures (bad `--wordlist-format` choice, a
`--wordlist` path that fails the `click.Path(exists=True, ...)` check, a
`--count` below the `IntRange(min=1)` bound), the join-char usage error
raised in the command body, an `InvalidWordlist` parse error, the
`IndexError` escaping `secrets.choice`, and the final `assert`. -/
inductive CliError
  | usageChoice (given : String)
  | pathError (path : String)
  | usageCount (given : Int)
  | joinCharError (given : String)
  | invalidWordlist (e : InvalidWordlist)
  | sampleIndexError
  | assertionFailed
deriving DecidableEq

/-- Body of the `generate_passphrase` command (everything after click has
validated and converted the options): the join-char length check, opening
and parsing the wordlist, the sampling loop, the
`assert len(result_words) == word_count > 0`, and the final joined print. -/
def runBody (fmt : WordlistFormat) (filePath : String) (lines : List String)
    (wordCount : Nat) (joinChar : String) (quiet : Bool) (rand : Nat → Nat) :
    Except CliError RunOut :=
  if joinChar.length ≠ 1 then .error (.joinCharError joinChar)
  else
    match fmt.parse filePath lines with
    | .error e => .error (.invalidWordlist e)
    | .ok wl =>
      match sampleGo wl rand 0 wordCount with
      | .error _ => .error .sampleIndexError
      | .ok (ws, logs) =>
        if ws.length = wordCount ∧ 0 < wordCount then
          .ok ⟨[String.intercalate joinChar ws],
               if quiet then [] else logs ++ [""]⟩
        else .error .assertionFailed

/-- The `--wordlist-format` choice: `click.Choice` over the enum values. -/
def parseFormatName : String → Option WordlistFormat
  | "plain" => some .plain
  | "dicelist-eff" => some .dicelistEff
  | _ => none

/-- A whole invocation.  `fs` maps a path to the lines of an existing
readable file (`none` for a missing path).  Click converts and validates
every option before the command body runs, so the existence check on
`--wordlist` (`click.Path(exists=True, dir_okay=False, readable=True)`)
and the `IntRange(min=1)` check on `--count` both precede the body and in
particular precede the body's join-char length check. -/
def runCli (fmtName path : String) (count : Int) (joinChar : String)
    (quiet : Bool) (fs : String → Option (List String)) (rand : Nat → Nat) :
    Except CliError RunOut :=
  match parseFormatName fmtName with
  | none => .error (.usageChoice fmtName)
  | some fmt =>
    match fs path with
    | none => .error (.pathError path)
    | some lines =>
      if count < 1 then .error (.usageCount count)
      else runBody fmt path lines count.toNat joinChar quiet rand

/-- Parse result with the reported line number erased: used to compare
parses of files that differ only in blank lines. -/
def dropLineno :
    Except InvalidWordlist (List Word) →
    Except (Reason × String × WordlistFormat) (List Word)
  | .ok ws => .ok ws
  | .error e => .error (e.reason, e.filePath, e.fmt)

/-- A line the parser accepts or skips: blank after stripping, or fully
matching the format pattern with a capture that passes the word-shape
check. -/
def lineAccepted (fmt : WordlistFormat) (line : String) : Bool :=
  let l := pyStrip line
  (l == "") ||
    (match lineMatch fmt l with
     | some w => validWord w
     | none => false)

/-- A line the parser does not skip: non-empty after stripping. -/
def nonBlank (l : String) : Bool := pyStrip l != ""

instance : Inhabited Word := ⟨⟨"", 0⟩⟩

section ParseLemmas

variable (fmt : WordlistFormat) (p : String)

theorem parseGo_nil (n : Nat) (acc : List Word) :
    parseGo fmt p n acc [] = .ok acc := rfl

theorem parseGo_cons_blank {line : String} (n : Nat) (acc : List Word)
    (rest : List String) (hb : pyStrip line = "") :
    parseGo fmt p n acc (line :: rest) = parseGo fmt p (n + 1) acc rest := by
  simp [parseGo, hb]

theorem parseGo_cons_nomatch {line : String} (n : Nat) (acc : List Word)
    (rest : List String) (hb : pyStrip line ≠ "")
    (hm : lineMatch fmt (pyStrip line) = none) :
    parseGo fmt p n acc (line :: rest) = .error ⟨.notValidLine, n, p, fmt⟩ := by
  simp [parseGo, hb, hm]

theorem parseGo_cons_invalid {line w : String} (n : Nat) (acc : List Word)
    (rest : List String) (hb : pyStrip line ≠ "")
    (hm : lineMatch fmt (pyStrip line) = some w) (hv : validWord w = false) :
    parseGo fmt p n acc (line :: rest) = .error ⟨.invalidWord w, n, p, fmt⟩ := by
  simp [parseGo, hb, hm, hv]

theorem parseGo_cons_accept {line w : String} (n : Nat) (acc : List Word)
    (rest : List String) (hb : pyStrip line ≠ "")
    (hm : lineMatch fmt (pyStrip line) = some w) (hv : validWord w = true) :
    parseGo fmt p n acc (line :: rest) =
      parseGo fmt p (n + 1) (acc ++ [⟨w, acc.length⟩]) rest := by
  simp [parseGo, hb, hm, hv]

theorem parseGo_ok_length {lines : List String} {n : Nat} {acc ws : List Word}
    (h : parseGo fmt p n acc lines = .ok ws) :
    ws.length = acc.length + (lines.filter nonBlank).length := by
  induction lines generalizing n acc with
  | nil =>
    rw [parseGo_nil] at h
    cases h
    simp
  | cons line rest ih =>
    by_cases hb : pyStrip line = ""
    case pos =>
      rw [parseGo_cons_blank fmt p n acc rest hb] at h
      have := ih h
      simp [List.filter, nonBlank, hb] at this ⊢
      omega
    case neg =>
      cases hm : lineMatch fmt (pyStrip line) with
      | none =>
        rw [parseGo_cons_nomatch fmt p n acc rest hb hm] at h
        cases h
      | some w =>
        cases hv : validWord w with
        | false =>
          rw [parseGo_cons_invalid fmt p n acc rest hb hm hv] at h
          cases h
        | true =>
          rw [parseGo_cons_accept fmt p n acc rest hb hm hv] at h
          have := ih h
          simp [List.filter_cons, nonBlank, bne_iff_ne, hb] at this ⊢
          omega

theorem parseGo_ok_index {lines : List String} {n : Nat} {acc ws : List Word}
    (h : parseGo fmt p n acc lines = .ok ws)
    (hacc : acc.map Word.index = List.range acc.length) :
    ws.map Word.index = List.range ws.length := by
  induction lines generalizing n acc with
  | nil =>
    rw [parseGo_nil] at h
    cases h
    exact hacc
  | cons line rest ih =>
    by_cases hb : pyStrip line = ""
    case pos =>
      rw [parseGo_cons_blank fmt p n acc rest hb] at h
      exact ih h hacc
    case neg =>
      cases hm : lineMatch fmt (pyStrip line) with
      | none =>
        rw [parseGo_cons_nomatch fmt p n acc rest hb hm] at h
        cases h
      | some w =>
        cases hv : validWord w with
        | false =>
          rw [parseGo_cons_invalid fmt p n acc rest hb hm hv] at h
          cases h
        | true =>
          rw [parseGo_cons_accept fmt p n acc rest hb hm hv] at h
          refine ih h ?_
          simp [hacc, List.range_succ]

theorem parseGo_valid_words {lines : List String} {n : Nat} {acc ws : List Word}
    (h : parseGo fmt p n acc lines = .ok ws)
    (hacc : ∀ w ∈ acc, validWord w.word = true) :
    ∀ w ∈ ws, validWord w.word = true := by
  induction lines generalizing n acc with
  | nil =>
    rw [parseGo_nil] at h
    cases h
    exact hacc
  | cons line rest ih =>
    by_cases hb : pyStrip line = ""
    case pos =>
      rw [parseGo_cons_blank fmt p n acc rest hb] at h
      exact ih h hacc
    case neg =>
      cases hm : lineMatch fmt (pyStrip line) with
      | none =>
        rw [parseGo_cons_nomatch fmt p n acc rest hb hm] at h
        cases h
      | some w =>
        cases hv : validWord w with
        | false =>
          rw [parseGo_cons_invalid fmt p n acc rest hb hm hv] at h
          cases h
        | true =>
          rw [parseGo_cons_accept fmt p n acc rest hb hm hv] at h
          refine ih h ?_
          intro x hx
          rcases List.mem_append.mp hx with hx | hx
          · exact hacc x hx
          · simp at hx
            subst hx
            exact hv

theorem parseGo_all_blank {lines : List String} (n : Nat) (acc : List Word)
    (h : ∀ l ∈ lines, pyStrip l = "") :
    parseGo fmt p n acc lines = .ok acc := by
  induction lines generalizing n with
  | nil => rfl
  | cons line rest ih =>
    rw [parseGo_cons_blank fmt p n acc rest (h line (by simp))]
    exact ih (n + 1) fun l hl => h l (by simp [hl])

theorem parseGo_filter_blank {lines : List String} (n m : Nat) (acc : List Word) :
    dropLineno (parseGo fmt p n acc lines) =
      dropLineno (parseGo fmt p m acc (lines.filter nonBlank)) := by
  induction lines generalizing n m acc with
  | nil => rfl
  | cons line rest ih =>
    by_cases hb : pyStrip line = ""
    case pos =>
      have hf : (line :: rest).filter nonBlank = rest.filter nonBlank := by
        simp [List.filter_cons, nonBlank, hb]
      rw [hf, parseGo_cons_blank fmt p n acc rest hb]
      exact ih (n + 1) m acc
    case neg =>
      have hf : (line :: rest).filter nonBlank = line :: rest.filter nonBlank := by
        simp [List.filter_cons, nonBlank, bne_iff_ne, hb]
      rw [hf]
      cases hm : lineMatch fmt (pyStrip line) with
      | none =>
        rw [parseGo_cons_nomatch fmt p n acc rest hb hm,
          parseGo_cons_nomatch fmt p m acc (rest.filter nonBlank) hb hm]
        rfl
      | some w =>
        cases hv : validWord w with
        | false =>
          rw [parseGo_cons_invalid fmt p n acc rest hb hm hv,
            parseGo_cons_invalid fmt p m acc (rest.filter nonBlank) hb hm hv]
          rfl
        | true =>
          rw [parseGo_cons_accept fmt p n acc rest hb hm hv,
            parseGo_cons_accept fmt p m acc (rest.filter nonBlank) hb hm hv]
          exact ih (n + 1) (m + 1) (acc ++ [⟨w, acc.length⟩])

theorem parseGo_first_bad {pre post : List String} {bad : String} (n : Nat)
    (acc : List Word) (hpre : ∀ l ∈ pre, lineAccepted fmt l = true)
    (hb : pyStrip bad ≠ "") (hm : lineMatch fmt (pyStrip bad) = none) :
    parseGo fmt p n acc (pre ++ bad :: post) =
      .error ⟨.notValidLine, n + pre.length, p, fmt⟩ := by
  induction pre generalizing n acc with
  | nil =>
    simpa using parseGo_cons_nomatch fmt p n acc post hb hm
  | cons l pre ih =>
    have hl := hpre l (by simp)
    have htail : ∀ x ∈ pre, lineAccepted fmt x = true :=
      fun x hx => hpre x (by simp [hx])
    by_cases hbl : pyStrip l = ""
    case pos =>
      rw [List.cons_append, parseGo_cons_blank fmt p n acc _ hbl, ih (n + 1) acc htail]
      simp [List.length_cons]
      omega
    case neg =>
      cases hml : lineMatch fmt (pyStrip l) with
      | none => simp [lineAccepted, hbl, hml] at hl
      | some w =>
        have hvw : validWord w = true := by
          simpa [lineAccepted, hbl, hml] using hl
        rw [List.cons_append, parseGo_cons_accept fmt p n acc _ hbl hml hvw,
          ih (n + 1) (acc ++ [(⟨w, acc.length⟩ : Word)]) htail]
        simp [List.length_cons]
        omega

theorem lineMatch_plain {l w : String} (h : lineMatch .plain l = some w) :
    w = l ∧ validWord w = true := by
  simp only [lineMatch] at h
  split at h
  · cases h
    exact ⟨rfl, by assumption⟩
  · cases h

theorem parseGo_plain_words {lines : List String} {n : Nat} {acc ws : List Word}
    (h : parseGo .plain p n acc lines = .ok ws) :
    ws.map Word.word = acc.map Word.word ++ (lines.filter nonBlank).map pyStrip := by
  induction lines generalizing n acc with
  | nil =>
    rw [parseGo_nil] at h
    cases h
    simp
  | cons line rest ih =>
    by_cases hb : pyStrip line = ""
    case pos =>
      rw [parseGo_cons_blank .plain p n acc rest hb] at h
      have hf : (line :: rest).filter nonBlank = rest.filter nonBlank := by
        simp [List.filter_cons, nonBlank, hb]
      rw [hf]
      exact ih h
    case neg =>
      have hf : (line :: rest).filter nonBlank = line :: rest.filter nonBlank := by
        simp [List.filter_cons, nonBlank, bne_iff_ne, hb]
      cases hm : lineMatch .plain (pyStrip line) with
      | none =>
        rw [parseGo_cons_nomatch .plain p n acc rest hb hm] at h
        cases h
      | some w =>
        obtain ⟨hw, hv⟩ := lineMatch_plain hm
        rw [parseGo_cons_accept .plain p n acc rest hb hm hv] at h
        rw [hf, List.map_cons, ih h]
        simp [hw]

theorem parseGo_plain_error {lines : List String} {n : Nat} {acc : List Word}
    {e : InvalidWordlist} (h : parseGo .plain p n acc lines = .error e) :
    e.reason = .notValidLine := by
  induction lines generalizing n acc with
  | nil =>
    rw [parseGo_nil] at h
    cases h
  | cons line rest ih =>
    by_cases hb : pyStrip line = ""
    case pos =>
      rw [parseGo_cons_blank .plain p n acc rest hb] at h
      exact ih h
    case neg =>
      cases hm : lineMatch .plain (pyStrip line) with
      | none =>
        rw [parseGo_cons_nomatch .plain p n acc rest hb hm] at h
        cases h
        rfl
      | some w =>
        obtain ⟨hw, hv⟩ := lineMatch_plain hm
        rw [parseGo_cons_accept .plain p n acc rest hb hm hv] at h
        exact ih h

end ParseLemmas

section SampleLemmas

theorem sampleGo_ok (wl : List Word) (rand : Nat → Nat) (n : Nat) :
    ∀ (i : Nat), (∀ j, j < n → rand (i + j) < wl.length) →
    sampleGo wl rand i n =
      .ok ((List.range n).map fun j => (wl.getD (rand (i + j)) default).word,
           (List.range n).map fun j => pickLine (i + j) (wl.getD (rand (i + j)) default)) := by
  induction n with
  | zero =>
    intro i _
    simp [sampleGo]
  | succ n ih =>
    intro i h
    have hlt : rand i < wl.length := by simpa using h 0 (Nat.succ_pos n)
    have hget : wl.get? (rand i) = some (wl.getD (rand i) default) := by
      rw [List.get?_eq_getElem?, List.getElem?_eq_getElem hlt, List.getD_eq_getElem _ _ hlt]
    have hrec := ih (i + 1) (fun j hj => by
      have := h (j + 1) (by omega)
      have heq : i + (j + 1) = i + 1 + j := by omega
      rwa [heq] at this)
    simp only [sampleGo, hget, hrec, List.range_succ_eq_map, List.map_cons, List.map_map]
    have hw : List.map ((fun j => (wl.getD (rand (i + j)) default).word) ∘ Nat.succ)
          (List.range n)
        = List.map (fun j => (wl.getD (rand (i + 1 + j)) default).word) (List.range n) := by
      refine List.map_congr_left fun j hj => ?_
      simp only [Function.comp_apply]
      have heq : i + Nat.succ j = i + 1 + j := by omega
      rw [heq]
    have hl : List.map
          ((fun j => pickLine (i + j) (wl.getD (rand (i + j)) default)) ∘ Nat.succ)
          (List.range n)
        = List.map (fun j => pickLine (i + 1 + j) (wl.getD (rand (i + 1 + j)) default))
            (List.range n) := by
      refine List.map_congr_left fun j hj => ?_
      simp only [Function.comp_apply]
      have heq : i + Nat.succ j = i + 1 + j := by omega
      rw [heq]
    rw [hw, hl]
    simp

theorem runBody_ok {fmt : WordlistFormat} {p : String} {lines : List String}
    {wl : List Word} {K : Nat} {jc : String} {quiet : Bool} {rand : Nat → Nat}
    (hjc : jc.length = 1) (hparse : fmt.parse p lines = .ok wl) (hK : 0 < K)
    (hrand : ∀ i, i < K → rand i < wl.length) :
    runBody fmt p lines K jc quiet rand =
      .ok ⟨[String.intercalate jc
              ((List.range K).map fun i => (wl.getD (rand i) default).word)],
           if quiet then []
           else ((List.range K).map fun i => pickLine i (wl.getD (rand i) default)) ++ [""]⟩ := by
  have hs := sampleGo_ok wl rand K 0 (fun j hj => by simpa using hrand j hj)
  simp only [runBody, hjc, hparse, hs]
  simp [hK]

end SampleLemmas

theorem index_pointwise {ws : List Word} (h : ws.map Word.index = List.range ws.length)
    (i : Nat) (hi : i < ws.length) : ws[i].index = i := by
  have h1 : (ws.map Word.index)[i]? = (List.range ws.length)[i]? := by rw [h]
  rw [List.getElem?_map, List.getElem?_range hi, List.getElem?_eq_getElem hi] at h1
  simpa using h1

/-- C1 (counterexample): the claim says a `--join-char` of bad length is
reported even when the wordlist path does not exist.  In the code the
`click.Path(exists=True, ...)` conversion of `--wordlist` runs during
option processing, before the command body where the join-char length is
checked, so an invocation with a two-character join char and a missing
path reports the path error, not the join-char error. -/
theorem c1_counterexample :
    runCli "plain" "missing.txt" 3 "--" false (fun _ => none) (fun _ => 0) =
        .error (.pathError "missing.txt") ∧
      runCli "plain" "missing.txt" 3 "--" false (fun _ => none) (fun _ => 0) ≠
        .error (.joinCharError "--") := by
  decide

/-- C1 (amended): when the other click option validations pass (recognised
format name, existing wordlist path, count at least 1), a `--join-char`
whose length is not exactly 1 makes the run fail with the join-char usage
error, and this happens before the file content is read: the result is the
join-char error for every possible content `lines` of the file and every
random oracle.  A nonexistent wordlist path, however, is reported as a
path error by click's option processing even when the join char is also
invalid. -/
theorem c1_join_char_before_read (fmtName p jc : String) (fmt : WordlistFormat)
    (count : Int) (quiet : Bool) (fs : String → Option (List String))
    (rand : Nat → Nat) (lines : List String)
    (h1 : parseFormatName fmtName = some fmt) (h2 : fs p = some lines)
    (h3 : 1 ≤ count) (h4 : jc.length ≠ 1) :
    runCli fmtName p count jc quiet fs rand = .error (.joinCharError jc) := by
  simp only [runCli, h1, h2]
  rw [if_neg (by omega)]
  simp only [runBody]
  rw [if_pos h4]

theorem c1_join_char_before_read_witness :
    runCli "plain" "wl.txt" 2 "" true (fun _ => some ["alpha"]) (fun _ => 0) =
      .error (.joinCharError "") :=
  c1_join_char_before_read "plain" "wl.txt" "" .plain 2 true
    (fun _ => some ["alpha"]) (fun _ => 0) ["alpha"] rfl rfl (by decide) (by decide)

/-- C2 (confirmed): whenever parsing a file in `plain` format succeeds, the
result has exactly one word per non-blank line, the `index` field of the
word at each position equals that position (so indices are `0..N-1` in
file order), and the word texts are the stripped non-blank lines in file
order. -/
theorem c2_plain_parse_indices (p : String) (lines : List String) (ws : List Word)
    (h : WordlistFormat.parse .plain p lines = .ok ws) :
    ws.length = (lines.filter nonBlank).length ∧
      (∀ i (hi : i < ws.length), ws[i].index = i) ∧
      ws.map Word.word = (lines.filter nonBlank).map pyStrip := by
  refine ⟨?_, ?_, ?_⟩
  · have h0 := parseGo_ok_length .plain p h
    simpa using h0
  · exact index_pointwise (parseGo_ok_index .plain p h (by simp))
  · have h0 := parseGo_plain_words p h
    simpa using h0

theorem c2_plain_parse_indices_witness :
    WordlistFormat.parse .plain "wl" ["alpha", "", "beta"] =
        .ok [⟨"alpha", 0⟩, ⟨"beta", 1⟩] ∧
      ([(⟨"alpha", 0⟩ : Word), ⟨"beta", 1⟩]).length =
        ((["alpha", "", "beta"] : List String).filter nonBlank).length :=
  ⟨by decide,
    (c2_plain_parse_indices "wl" ["alpha", "", "beta"]
      [⟨"alpha", 0⟩, ⟨"beta", 1⟩] (by decide)).1⟩

/-- C3 (confirmed): a successful run with `word_count = K ≥ 1` over a
non-empty parsed wordlist prints, as the single line of the primary output
stream, `String.intercalate` of the join character over a list of exactly
K texts, each of which is the text of a word of the parsed wordlist
(`String.intercalate` inserts exactly K-1 occurrences of the separator
between K items). -/
theorem c3_passphrase_shape (fmt : WordlistFormat) (p : String)
    (lines : List String) (wl : List Word) (K : Nat) (jc : String)
    (quiet : Bool) (rand : Nat → Nat)
    (hparse : WordlistFormat.parse fmt p lines = .ok wl) (hwl : wl ≠ [])
    (hjc : jc.length = 1) (hK : 1 ≤ K)
    (hrand : ∀ i, i < K → rand i < wl.length) :
    runBody fmt p lines K jc quiet rand =
        .ok ⟨[String.intercalate jc
                ((List.range K).map fun i => (wl.getD (rand i) default).word)],
             if quiet then []
             else ((List.range K).map fun i =>
                 pickLine i (wl.getD (rand i) default)) ++ [""]⟩ ∧
      ((List.range K).map fun i => (wl.getD (rand i) default).word).length = K ∧
      ∀ t ∈ (List.range K).map fun i => (wl.getD (rand i) default).word,
        t ∈ wl.map Word.word := by
  refine ⟨runBody_ok hjc hparse hK hrand, by simp, ?_⟩
  intro t ht
  simp only [List.mem_map, List.mem_range] at ht
  obtain ⟨i, hi, rfl⟩ := ht
  have hlt : rand i < wl.length := hrand i hi
  rw [List.getD_eq_getElem wl default hlt]
  exact List.mem_map.mpr ⟨wl[rand i], List.getElem_mem hlt, rfl⟩

theorem c3_passphrase_shape_witness :
    runBody .plain "wl" ["alpha", "beta"] 2 "-" true (fun i => i) =
        .ok ⟨["alpha-beta"], []⟩ := by
  have h := c3_passphrase_shape .plain "wl" ["alpha", "beta"]
    [⟨"alpha", 0⟩, ⟨"beta", 1⟩] 2 "-" true (fun i => i)
    (by decide) (by decide) (by decide) (by decide) (fun i hi => by simpa using hi)
  rw [h.1]
  decide

/-- C4 (confirmed): under the `dicelist-eff` format the line
`"42  correct"` parses to the single word `"correct"` with index 0, while
a line that strips to digits only, such as `"42  "`, fully matches the
line pattern with an empty captured word, the empty capture fails the
universal word-shape check, and parsing fails with the
`InvalidWordlist("Invalid word ...")` error at that line. -/
theorem c4_dicelist_examples :
    WordlistFormat.parse .dicelistEff "f" ["42  correct"] = .ok [⟨"correct", 0⟩] ∧
      pyStrip "42  " = "42" ∧
      lineMatch .dicelistEff "42" = some "" ∧
      validWord "" = false ∧
      WordlistFormat.parse .dicelistEff "f" ["42  "] =
        .error ⟨.invalidWord "", 1, "f", .dicelistEff⟩ := by
  decide

/-- C5 (counterexample): the claim asserts the parse result of a file with
blank lines equals the parse result with the blank lines deleted, for
every file.  It fails on error values: the reported 1-based line number
counts blank lines, so a file whose invalid line is preceded by a blank
line reports line 2, while the same file with the blank line deleted
reports line 1. -/
theorem c5_counterexample :
    ¬(WordlistFormat.parse .plain "f" ["", "!!"] =
        WordlistFormat.parse .plain "f" ["!!"]) := by
  decide

/-- C5 (amended): inserting or removing blank lines changes the parse
result at most in the reported line number: for every file and every
format, the parse of the file and the parse of the file with its blank
lines deleted agree after erasing the line number from the error case.
In particular blank lines never affect the count, indices or texts of
accepted words, never turn success into failure, and never change the
failure reason — only the reported line number, which reflects the
original file's numbering. -/
theorem c5_blank_lines_modulo_lineno (fmt : WordlistFormat) (p : String)
    (lines : List String) :
    dropLineno (WordlistFormat.parse fmt p lines) =
      dropLineno (WordlistFormat.parse fmt p (lines.filter nonBlank)) :=
  parseGo_filter_blank fmt p 1 1 []

/-- C6 (confirmed): for every format, if the lines before `bad` are all
blank or accepted and `bad` is non-blank and fails the format's
full-string line pattern, then parsing fails with
`InvalidWordlist("Not a valid line")` carrying the 1-based line number of
`bad` (blank lines included in the count), independently of everything
after `bad` — parsing aborts at the first failing line and no partial
wordlist is produced. -/
theorem c6_first_invalid_line (fmt : WordlistFormat) (p : String)
    (pre post : List String) (bad : String)
    (hpre : ∀ l ∈ pre, lineAccepted fmt l = true)
    (hb : pyStrip bad ≠ "") (hm : lineMatch fmt (pyStrip bad) = none) :
    WordlistFormat.parse fmt p (pre ++ bad :: post) =
      .error ⟨.notValidLine, pre.length + 1, p, fmt⟩ := by
  have h := @parseGo_first_bad fmt p pre post bad 1 [] hpre hb hm
  rw [WordlistFormat.parse, h]
  have heq : 1 + pre.length = pre.length + 1 := by omega
  rw [heq]

theorem c6_first_invalid_line_witness :
    WordlistFormat.parse .plain "f" (["ok"] ++ "two words" :: ["x"]) =
      .error ⟨.notValidLine, 2, "f", .plain⟩ := by
  have h := c6_first_invalid_line .plain "f" ["ok"] ["x"] "two words"
    (by decide) (by decide) (by decide)
  simpa using h

/-- C7 (confirmed): a file in which every line is blank (including the
empty file) parses to the empty wordlist without error, under either
format; the sampling step over the empty wordlist then fails at its first
draw — for every random oracle — so the run aborts with the sampling
error instead of producing a passphrase. -/
theorem c7_empty_wordlist_crashes_at_sample (fmt : WordlistFormat) (p : String)
    (lines : List String) (K : Nat) (jc : String) (quiet : Bool)
    (rand : Nat → Nat) (hblank : ∀ l ∈ lines, pyStrip l = "")
    (hjc : jc.length = 1) (hK : 1 ≤ K) :
    WordlistFormat.parse fmt p lines = .ok [] ∧
      sampleGo [] rand 0 K = .error .indexError ∧
      runBody fmt p lines K jc quiet rand = .error .sampleIndexError := by
  have hp : WordlistFormat.parse fmt p lines = .ok [] :=
    parseGo_all_blank fmt p 1 [] hblank
  have hs : sampleGo [] rand 0 K = .error .indexError := by
    cases K with
    | zero => omega
    | succ n => simp [sampleGo]
  refine ⟨hp, hs, ?_⟩
  simp only [runBody, hjc, hp, hs]
  simp

theorem c7_empty_wordlist_crashes_at_sample_witness :
    WordlistFormat.parse .plain "f" ["", "  "] = .ok [] ∧
      sampleGo [] (fun _ => 0) 0 1 = .error .indexError ∧
      runBody .plain "f" ["", "  "] 1 " " false (fun _ => 0) =
        .error .sampleIndexError :=
  c7_empty_wordlist_crashes_at_sample .plain "f" ["", "  "] 1 " " false
    (fun _ => 0) (by decide) (by decide) (by decide)

/-- C8 (confirmed): for a successful run with `word_count = K`, quiet mode
writes nothing to the diagnostic stream, while non-quiet mode writes
exactly the K pick lines (line `i` being `pickLine i` of the picked word,
i.e. the draw index zero-padded to at least two digits followed by the
picked word's index and quoted text) plus one trailing blank line; in
both modes the primary output stream receives exactly the one passphrase
line. -/
theorem c8_stream_effects (fmt : WordlistFormat) (p : String)
    (lines : List String) (wl : List Word) (K : Nat) (jc : String)
    (rand : Nat → Nat)
    (hparse : WordlistFormat.parse fmt p lines = .ok wl)
    (hjc : jc.length = 1) (hK : 1 ≤ K)
    (hrand : ∀ i, i < K → rand i < wl.length) :
    runBody fmt p lines K jc true rand =
        .ok ⟨[String.intercalate jc
                ((List.range K).map fun i => (wl.getD (rand i) default).word)],
             []⟩ ∧
      runBody fmt p lines K jc false rand =
        .ok ⟨[String.intercalate jc
                ((List.range K).map fun i => (wl.getD (rand i) default).word)],
             ((List.range K).map fun i =>
                 pickLine i (wl.getD (rand i) default)) ++ [""]⟩ ∧
      ((List.range K).map fun i => pickLine i (wl.getD (rand i) default)).length
        = K := by
  refine ⟨?_, ?_, by simp⟩
  · simpa using runBody_ok hjc hparse hK hrand
  · simpa using runBody_ok hjc hparse hK hrand

theorem c8_stream_effects_witness :
    runBody .plain "wl" ["alpha", "beta"] 2 "-" true (fun i => i) =
        .ok ⟨["alpha-beta"], []⟩ ∧
      runBody .plain "wl" ["alpha", "beta"] 2 "-" false (fun i => i) =
        .ok ⟨["alpha-beta"],
             ["00 picked index 0: \x27alpha\x27",
              "01 picked index 1: \x27beta\x27", ""]⟩ := by
  have h := c8_stream_effects .plain "wl" ["alpha", "beta"]
    [⟨"alpha", 0⟩, ⟨"beta", 1⟩] 2 "-" (fun i => i)
    (by decide) (by decide) (by decide) (fun i hi => by simpa using hi)
  constructor
  · rw [h.1]
    decide
  · rw [h.2.1]
    decide

/-- C9 (confirmed): a `Word` can be constructed exactly when its text
fully matches the allowed-word pattern (`Word.__post_init__` raises
otherwise), and consequently every word in a successfully parsed
wordlist, under either format, has a text satisfying that one invariant. -/
theorem c9_word_shape_invariant (s : String) (i : Nat) (fmt : WordlistFormat)
    (p : String) (lines : List String) (ws : List Word) :
    ((∃ w, mkWord s i = .ok w) ↔ validWord s = true) ∧
      (WordlistFormat.parse fmt p lines = .ok ws →
        ∀ w ∈ ws, validWord w.word = true) := by
  constructor
  · constructor
    · rintro ⟨w, hw⟩
      by_contra hv
      simp [mkWord, hv] at hw
    · intro hv
      exact ⟨⟨s, i⟩, by simp [mkWord, hv]⟩
  · intro h
    exact parseGo_valid_words fmt p h (by simp)

theorem c9_word_shape_invariant_witness :
    validWord (Word.mk "correct" 0).word = true ∧ validWord "correct" = true :=
  have h := c9_word_shape_invariant "correct" 0 .plain "f" ["correct"]
    [⟨"correct", 0⟩]
  ⟨h.2 (by decide) ⟨"correct", 0⟩ (by simp), h.1.mp ⟨⟨"correct", 0⟩, by decide⟩⟩

/-- C10 (confirmed): in `plain` format the line pattern is the allowed-word
pattern itself, so a full match captures the whole line and the capture
always passes the word-shape check; consequently the
`InvalidWordlist("Invalid word ...")` branch is unreachable when parsing
in `plain` format — every `plain` parse error is a
`"Not a valid line"` error. -/
theorem c10_plain_invalid_word_unreachable (l w p : String)
    (lines : List String) (e : InvalidWordlist) :
    (lineMatch .plain l = some w → w = l ∧ validWord w = true) ∧
      (WordlistFormat.parse .plain p lines = .error e →
        e.reason = .notValidLine) :=
  ⟨lineMatch_plain, fun h => parseGo_plain_error p h⟩

theorem c10_plain_invalid_word_unreachable_witness :
    ("correct" = "correct" ∧ validWord "correct" = true) ∧
      (InvalidWordlist.mk .notValidLine 1 "f" .plain).reason = .notValidLine :=
  have h := c10_plain_invalid_word_unreachable "correct" "correct" "f" ["a b"]
    ⟨.notValidLine, 1, "f", .plain⟩
  ⟨h.1 (by decide), h.2 (by decide)⟩

end PassphraseGen
